import Mathlib

/-!
Shallow embedding of `src/pubsub/pubsub.py` (Python 3 semantics).

The source module is:

  from collections import defaultdict
  __subscriptions = defaultdict(list) # map of channel to callback function

  def pub(channel, *args, **kwargs):
      for callback in __subscriptions[channel]:
          callback(*args, **kwargs)

  def sub(channel, function):
      __subscriptions[channel].append(function)

  def unsub(channel, function):
      __subscriptions[channel] = filter(lambda func: func is not function,
          __subscriptions[channel])

Modelling decisions, all taken from Python 3 semantics of this code:

* A handler is identified by its object identity (`id` field below); the
  `val` field stands for the handler's structural value, so that two
  distinct handler objects (different `id`) may compare equal (same `val`).
  `unsub` filters with `func is not function`, i.e. by identity only.
* `__subscriptions` is a `defaultdict(list)`: indexing a missing channel
  inserts an empty list for it.  All three operations index with
  `__subscriptions[channel]`, so each of them materialises the entry.
* In Python 3 `filter(...)` is a lazy iterator, not a list.  After
  `unsub`, the dict maps the channel to a filter object whose inner
  iterator ranges over the previous value (a list iterator over the old
  list, or the previous filter object when `unsub` is called twice).
  A channel's stored value is therefore either a concrete list
  (`ChanVal.lst`) or such a filter-iterator chain (`ChanVal.iter`).
* Iterating a list (`pub` on a `lst` channel) does not change it;
  iterating a filter object consumes it, and the consumed state persists
  in the dict.  `list.append` on a filter object raises
  `AttributeError`, which `sub` models by returning `none`.
* A handler invocation may raise: the behaviour parameter
  `beh : Handler → Args → Bool` tells whether a given call returns
  normally (`true`) or raises (`false`).  A raise stops the `for` loop of
  `pub` at that point and propagates (`PubResult.ok = false`).
-/

/-- Positional and keyword arguments of a `pub` call, forwarded verbatim
to every callback (`*args, **kwargs` in the source). -/
structure Args where
  pos : List Nat
  kw : List (Nat × Nat)
  deriving DecidableEq, Repr

/-- A Python callback object: `id` is its object identity (what `is`
compares), `val` its structural value (what `==` would compare). -/
structure Handler where
  id : Nat
  val : Nat
  deriving DecidableEq, Repr

/-- A Python iterator as left behind by `unsub`: either a list iterator
with its remaining elements, or a filter object
`filter(lambda func: func is not x, inner)` wrapping an inner iterator. -/
inductive PyIter where
  | listIter : List Handler → PyIter
  | filterIter : Handler → PyIter → PyIter
  deriving DecidableEq, Repr

/-- The value stored for a channel in `__subscriptions`: a concrete
Python list, or the lazy filter iterator that `unsub` reassigns. -/
inductive ChanVal where
  | lst : List Handler → ChanVal
  | iter : PyIter → ChanVal
  deriving DecidableEq, Repr

/-- Channel identifiers (string topic names in the source's tests). -/
abbrev Channel := String

/-- The state of the module-level `__subscriptions` mapping, as an
insertion-ordered association list from channel to stored value. -/
abbrev Subscriptions := List (Channel × ChanVal)

/-- Elements a `PyIter` would still yield, given the identities `excl`
excluded by enclosing filter objects. -/
def PyIter.toListEx (excl : List Nat) : PyIter → List Handler
  | .listIter l => l.filter (fun g => decide (g.id ∉ excl))
  | .filterIter x i => i.toListEx (x.id :: excl)

/-- Elements a `PyIter` would still yield. -/
def PyIter.toList (i : PyIter) : List Handler :=
  i.toListEx []

/-- The handlers a channel's stored value still holds: the list itself,
or what the filter iterator would still yield. -/
def ChanVal.handlers : ChanVal → List Handler
  | .lst l => l
  | .iter i => i.toList

/-- Result of running the `for` loop of `pub`: the calls made (handler
and the arguments it received, in order), the elements the underlying
list iterator has not consumed, and whether the loop finished without a
handler raising. -/
structure RunOut where
  calls : List (Handler × Args)
  remaining : List Handler
  ok : Bool
  deriving DecidableEq, Repr

/-- Result of running the `for` loop of `pub` over a filter-iterator
chain: the calls made, the iterator state left behind, and whether the
loop finished without a handler raising. -/
structure IterOut where
  calls : List (Handler × Args)
  it : PyIter
  ok : Bool
  deriving DecidableEq, Repr

/-- Result of `pub`: the calls made, the `__subscriptions` state
afterwards, and whether it returned normally (`ok = true`) or a handler's
exception propagated (`ok = false`). -/
structure PubResult where
  calls : List (Handler × Args)
  state : Subscriptions
  ok : Bool
  deriving DecidableEq, Repr

/-- The `for callback in ...: callback(*args, **kwargs)` loop over the
elements of a list iterator.  `excl` holds the identities excluded by
enclosing filter objects: those elements are pulled and discarded by the
filter without being called.  A handler that raises (`beh g args =
false`) stops the loop; it has been called, the elements after it remain
unconsumed. -/
def runHandlers (beh : Handler → Args → Bool) (args : Args) (excl : List Nat) :
    List Handler → RunOut
  | [] => ⟨[], [], true⟩
  | g :: t =>
    if g.id ∈ excl then runHandlers beh args excl t
    else if beh g args then
      let r := runHandlers beh args excl t
      ⟨(g, args) :: r.calls, r.remaining, r.ok⟩
    else ⟨[(g, args)], t, false⟩

/-- The `for` loop of `pub` over a filter-iterator chain: a filter layer
adds its excluded identity and keeps wrapping whatever inner iterator
state the loop leaves behind. -/
def runIter (beh : Handler → Args → Bool) (args : Args) (excl : List Nat) :
    PyIter → IterOut
  | .listIter l =>
    let r := runHandlers beh args excl l
    ⟨r.calls, .listIter r.remaining, r.ok⟩
  | .filterIter x i =>
    let r := runIter beh args (x.id :: excl) i
    ⟨r.calls, .filterIter x r.it, r.ok⟩

/-- First binding of a channel in the mapping (Python dict lookup). -/
def findChan : Subscriptions → Channel → Option ChanVal
  | [], _ => none
  | (c', v) :: t, c => if c' = c then some v else findChan t c

/-- Rebind a channel in the mapping (Python dict item assignment);
an absent channel is appended, preserving insertion order. -/
def setChan : Subscriptions → Channel → ChanVal → Subscriptions
  | [], c, v => [(c, v)]
  | (c', v') :: t, c, v =>
    if c' = c then (c, v) :: t else (c', v') :: setChan t c v

/-- Embedding of `pub(channel, *args, **kwargs)`.  Indexing the
`defaultdict` inserts an empty list for a missing channel; the `for`
loop then iterates the stored value.  Iterating a list leaves it
unchanged; iterating a filter object consumes it, and the consumed
iterator stays in the mapping. -/
def pub (c : Channel) (args : Args) (beh : Handler → Args → Bool)
    (s : Subscriptions) : PubResult :=
  match findChan s c with
  | none => ⟨[], s ++ [(c, .lst [])], true⟩
  | some (.lst l) =>
    let r := runHandlers beh args [] l
    ⟨r.calls, s, r.ok⟩
  | some (.iter i) =>
    let r := runIter beh args [] i
    ⟨r.calls, setChan s c (.iter r.it), r.ok⟩

/-- Embedding of `sub(channel, function)`:
`__subscriptions[channel].append(function)`.  On a missing channel the
`defaultdict` inserts `[]` and the append yields `[function]`.  When the
channel holds a filter object left by `unsub`, `.append` raises
`AttributeError`, modelled as `none`. -/
def sub (c : Channel) (h : Handler) (s : Subscriptions) :
    Option Subscriptions :=
  match findChan s c with
  | none => some (s ++ [(c, .lst [h])])
  | some (.lst l) => some (setChan s c (.lst (l ++ [h])))
  | some (.iter _) => none

/-- Embedding of `unsub(channel, function)`: rebinds the channel to
`filter(lambda func: func is not function, __subscriptions[channel])`,
a lazy filter object over the previous value (over a fresh list iterator
when that value is a list, over the previous filter object otherwise).
It never raises. -/
def unsub (c : Channel) (h : Handler) (s : Subscriptions) : Subscriptions :=
  match findChan s c with
  | none => s ++ [(c, .iter (.filterIter h (.listIter [])))]
  | some (.lst l) => setChan s c (.iter (.filterIter h (.listIter l)))
  | some (.iter i) => setChan s c (.iter (.filterIter h i))

/-- The handlers a subsequent `pub c` would still invoke (assuming none
raises): the channel's stored handlers, `[]` for an unknown channel. -/
def registered (s : Subscriptions) (c : Channel) : List Handler :=
  match findChan s c with
  | none => []
  | some v => v.handlers

/-! ### Lemmas about the mapping -/

theorem findChan_append_some {s : Subscriptions} {c : Channel} {w : ChanVal}
    (hf : findChan s c = some w) (t : Subscriptions) :
    findChan (s ++ t) c = some w := by
  induction s with
  | nil => simp [findChan] at hf
  | cons p r ih =>
    obtain ⟨c', v⟩ := p
    by_cases hc : c' = c
    · simpa [findChan, hc] using hf
    · simp only [findChan, hc, if_false, List.cons_append] at hf ⊢
      simp [findChan, hc]
      exact ih hf

theorem findChan_append_none {s : Subscriptions} {c : Channel}
    (hf : findChan s c = none) (t : Subscriptions) :
    findChan (s ++ t) c = findChan t c := by
  induction s with
  | nil => simp
  | cons p r ih =>
    obtain ⟨c', v⟩ := p
    by_cases hc : c' = c
    · simp [findChan, hc] at hf
    · simp only [findChan, hc, if_false] at hf
      simpa [findChan, hc] using ih hf

theorem findChan_setChan_self (s : Subscriptions) (c : Channel) (v : ChanVal) :
    findChan (setChan s c v) c = some v := by
  induction s with
  | nil => simp [setChan, findChan]
  | cons p r ih =>
    obtain ⟨c', v'⟩ := p
    by_cases hc : c' = c
    · simp [setChan, findChan, hc]
    · simpa [setChan, findChan, hc] using ih

theorem findChan_setChan_ne (s : Subscriptions) {c c' : Channel}
    (hne : c' ≠ c) (v : ChanVal) :
    findChan (setChan s c v) c' = findChan s c' := by
  have hcc : ¬ c = c' := fun h => hne h.symm
  induction s with
  | nil => simp [setChan, findChan, hcc]
  | cons p r ih =>
    obtain ⟨c'', v''⟩ := p
    by_cases hc : c'' = c
    · subst hc
      simp [setChan, findChan, hcc]
    · simp [setChan, findChan, hc, ih]

/-! ### Lemmas about iterator yield lists -/

theorem filter_cons_excl (l : List Handler) (e : Nat) (excl : List Nat) :
    l.filter (fun g => decide (g.id ∉ e :: excl))
      = (l.filter (fun g => decide (g.id ∉ ([e] : List Nat)))).filter
          (fun g => decide (g.id ∉ excl)) := by
  rw [List.filter_filter]
  refine List.filter_congr ?_
  intro g _
  by_cases h1 : g.id = e
  · simp [h1]
  · by_cases h2 : g.id ∈ excl
    · simp [h1, h2]
    · simp [h1, h2]

theorem toListEx_eq (i : PyIter) : ∀ excl : List Nat,
    i.toListEx excl = (i.toListEx []).filter (fun g => decide (g.id ∉ excl)) := by
  induction i with
  | listIter l => intro excl; simp [PyIter.toListEx]
  | filterIter x j ih =>
    intro excl
    simp only [PyIter.toListEx]
    rw [ih (x.id :: excl), ih [x.id], filter_cons_excl]

/-! ### Characterisation of the `for` loop when no handler raises -/

theorem runHandlers_ok (beh : Handler → Args → Bool) (args : Args)
    (excl : List Nat) (l : List Handler)
    (hb : ∀ g ∈ l, g.id ∉ excl → beh g args = true) :
    runHandlers beh args excl l
      = ⟨(l.filter (fun g => decide (g.id ∉ excl))).map (fun g => (g, args)),
         [], true⟩ := by
  induction l with
  | nil => rfl
  | cons g t ih =>
    have ht : ∀ g' ∈ t, g'.id ∉ excl → beh g' args = true := by
      intro g' hg' hn
      exact hb g' (List.mem_cons_of_mem _ hg') hn
    by_cases h1 : g.id ∈ excl
    · simp [runHandlers, h1, ih ht, List.filter_cons]
    · have hbg : beh g args = true := hb g (List.mem_cons_self _ _) h1
      simp [runHandlers, h1, hbg, ih ht, List.filter_cons]

theorem runIter_ok (beh : Handler → Args → Bool) (args : Args) (i : PyIter) :
    ∀ excl : List Nat, (∀ g ∈ i.toListEx excl, beh g args = true) →
    (runIter beh args excl i).calls = (i.toListEx excl).map (fun g => (g, args))
      ∧ (runIter beh args excl i).ok = true := by
  induction i with
  | listIter l =>
    intro excl hb
    have hb' : ∀ g ∈ l, g.id ∉ excl → beh g args = true := by
      intro g hg hn
      refine hb g ?_
      simp [PyIter.toListEx, List.mem_filter, hg, hn]
    simp [runIter, runHandlers_ok beh args excl l hb', PyIter.toListEx]
  | filterIter x j ih =>
    intro excl hb
    have hb' : ∀ g ∈ j.toListEx (x.id :: excl), beh g args = true := by
      intro g hg
      refine hb g ?_
      simpa [PyIter.toListEx] using hg
    simpa [runIter, PyIter.toListEx] using ih (x.id :: excl) hb'

/-- When no registered handler raises on these arguments, `pub` calls
exactly the registered handlers, in order, each with the supplied
arguments, and returns normally. -/
theorem pub_calls_of_ok (c : Channel) (args : Args)
    (beh : Handler → Args → Bool) (s : Subscriptions)
    (hb : ∀ g ∈ registered s c, beh g args = true) :
    (pub c args beh s).calls = (registered s c).map (fun g => (g, args))
      ∧ (pub c args beh s).ok = true := by
  unfold registered at hb ⊢
  unfold pub
  cases hf : findChan s c with
  | none => simp
  | some v =>
    rw [hf] at hb
    cases v with
    | lst l =>
      have hb' : ∀ g ∈ l, g.id ∉ ([] : List Nat) → beh g args = true := by
        intro g hg _
        exact hb g (by simpa [ChanVal.handlers] using hg)
      have hfl : l.filter (fun g => decide (g.id ∉ ([] : List Nat))) = l := by
        simp
      simp [runHandlers_ok beh args [] l hb', ChanVal.handlers, hfl]
    | iter i =>
      have hb' : ∀ g ∈ i.toListEx [], beh g args = true := by
        intro g hg
        exact hb g (by simpa [ChanVal.handlers, PyIter.toList] using hg)
      have h := runIter_ok beh args i [] hb'
      simp [ChanVal.handlers, PyIter.toList, h.1, h.2]

/-! ### Frame lemmas: each operation touches only its own channel -/

theorem findChan_pub_ne (c : Channel) (args : Args) (beh : Handler → Args → Bool)
    (s : Subscriptions) {c' : Channel} (hne : c' ≠ c) :
    findChan (pub c args beh s).state c' = findChan s c' := by
  have hcc : ¬ c = c' := fun hh => hne hh.symm
  unfold pub
  cases hf : findChan s c with
  | none =>
    cases hf' : findChan s c' with
    | none =>
      rw [findChan_append_none hf']
      simp [findChan, hcc]
    | some w =>
      exact findChan_append_some hf' _
  | some v =>
    cases v with
    | lst l => simp
    | iter i =>
      simpa using findChan_setChan_ne s hne _

theorem findChan_unsub_ne (c : Channel) (h : Handler) (s : Subscriptions)
    {c' : Channel} (hne : c' ≠ c) :
    findChan (unsub c h s) c' = findChan s c' := by
  have hcc : ¬ c = c' := fun hh => hne hh.symm
  unfold unsub
  cases hf : findChan s c with
  | none =>
    cases hf' : findChan s c' with
    | none =>
      rw [findChan_append_none hf']
      simp [findChan, hcc]
    | some w =>
      exact findChan_append_some hf' _
  | some v =>
    cases v with
    | lst l => exact findChan_setChan_ne s hne _
    | iter i => exact findChan_setChan_ne s hne _

theorem findChan_sub_ne (c : Channel) (h : Handler) {s s' : Subscriptions}
    (hs : sub c h s = some s') {c' : Channel} (hne : c' ≠ c) :
    findChan s' c' = findChan s c' := by
  have hcc : ¬ c = c' := fun hh => hne hh.symm
  unfold sub at hs
  cases hf : findChan s c with
  | none =>
    rw [hf] at hs
    simp only [Option.some.injEq] at hs
    subst hs
    cases hf' : findChan s c' with
    | none =>
      rw [findChan_append_none hf']
      simp [findChan, hcc]
    | some w =>
      exact findChan_append_some hf' _
  | some v =>
    rw [hf] at hs
    cases v with
    | lst l =>
      simp only [Option.some.injEq] at hs
      subst hs
      exact findChan_setChan_ne s hne _
    | iter i => simp at hs

theorem registered_pub_ne (c : Channel) (args : Args) (beh : Handler → Args → Bool)
    (s : Subscriptions) {c' : Channel} (hne : c' ≠ c) :
    registered (pub c args beh s).state c' = registered s c' := by
  unfold registered
  rw [findChan_pub_ne c args beh s hne]

theorem registered_unsub_ne (c : Channel) (h : Handler) (s : Subscriptions)
    {c' : Channel} (hne : c' ≠ c) :
    registered (unsub c h s) c' = registered s c' := by
  unfold registered
  rw [findChan_unsub_ne c h s hne]

theorem registered_sub_ne (c : Channel) (h : Handler) {s s' : Subscriptions}
    (hs : sub c h s = some s') {c' : Channel} (hne : c' ≠ c) :
    registered s' c' = registered s c' := by
  unfold registered
  rw [findChan_sub_ne c h hs hne]

/-! ### What the operations do to their own channel -/

theorem filter_not_mem_singleton (l : List Handler) (e : Nat) :
    l.filter (fun g => decide (g.id ∉ ([e] : List Nat)))
      = l.filter (fun g => decide (g.id ≠ e)) := by
  refine List.filter_congr ?_
  intro g _
  simp

theorem registered_unsub_self (c : Channel) (h : Handler) (s : Subscriptions) :
    registered (unsub c h s) c
      = (registered s c).filter (fun g => decide (g.id ≠ h.id)) := by
  unfold registered unsub
  cases hf : findChan s c with
  | none =>
    rw [findChan_append_none hf]
    simp [findChan, PyIter.toListEx, ChanVal.handlers, PyIter.toList]
  | some v =>
    cases v with
    | lst l =>
      rw [findChan_setChan_self]
      simp only [ChanVal.handlers, PyIter.toList, PyIter.toListEx]
      exact filter_not_mem_singleton l h.id
    | iter i =>
      rw [findChan_setChan_self]
      simp only [ChanVal.handlers, PyIter.toList, PyIter.toListEx]
      rw [toListEx_eq i [h.id]]
      exact filter_not_mem_singleton _ h.id

theorem registered_sub_self (c : Channel) (h : Handler) {s s' : Subscriptions}
    (hs : sub c h s = some s') :
    registered s' c = registered s c ++ [h] := by
  unfold sub at hs
  cases hf : findChan s c with
  | none =>
    rw [hf] at hs
    simp only [Option.some.injEq] at hs
    subst hs
    unfold registered
    rw [findChan_append_none hf, hf]
    simp [findChan, ChanVal.handlers]
  | some v =>
    rw [hf] at hs
    cases v with
    | lst l =>
      simp only [Option.some.injEq] at hs
      subst hs
      unfold registered
      rw [findChan_setChan_self, hf]
      simp [ChanVal.handlers]
    | iter i => simp at hs

/-! ### Auxiliary facts about call lists -/

theorem count_map_pair (l : List Handler) (h : Handler) (a : Args) :
    (l.map (fun g => (g, a))).count (h, a) = l.count h := by
  induction l with
  | nil => rfl
  | cons g t ih =>
    by_cases hg : g = h
    · simp [List.count_cons, hg, ih]
    · have hp : ¬ ((g, a) = (h, a)) := by simp [hg]
      simp [List.count_cons, hg, hp, ih]

theorem mem_map_pair_fst {l : List Handler} {g : Handler} {b a : Args}
    (hm : (g, b) ∈ l.map (fun x => (x, a))) : g ∈ l := by
  rcases List.mem_map.1 hm with ⟨x, hx, he⟩
  cases he
  exact hx

/-! ### The `for` loop when a handler raises -/

theorem runHandlers_raise (beh : Handler → Args → Bool) (args : Args)
    (l1 : List Handler) (hr : Handler) (l2 : List Handler)
    (hb : ∀ g ∈ l1, beh g args = true) (hbr : beh hr args = false) :
    runHandlers beh args [] (l1 ++ hr :: l2)
      = ⟨l1.map (fun g => (g, args)) ++ [(hr, args)], l2, false⟩ := by
  induction l1 with
  | nil => simp [runHandlers, hbr]
  | cons g t ih =>
    have hg : beh g args = true := hb g (List.mem_cons_self _ _)
    have ht : ∀ g' ∈ t, beh g' args = true := by
      intro g' hg'
      exact hb g' (List.mem_cons_of_mem _ hg')
    simp [runHandlers, hg, ih ht]

/-! ### State effect of `pub` on a channel holding a concrete list -/

theorem registered_pub_self_list (c : Channel) (args : Args)
    (beh : Handler → Args → Bool) (s : Subscriptions)
    (hl : findChan s c = none ∨ ∃ l, findChan s c = some (ChanVal.lst l)) :
    registered (pub c args beh s).state c = registered s c := by
  unfold pub
  rcases hl with hf | ⟨l, hf⟩
  · rw [hf]
    unfold registered
    rw [findChan_append_none hf, hf]
    simp [findChan, ChanVal.handlers]
  · rw [hf]

theorem findChan_pub_self_list (c : Channel) (args : Args)
    (beh : Handler → Args → Bool) (s : Subscriptions)
    (hl : findChan s c = none ∨ ∃ l, findChan s c = some (ChanVal.lst l)) :
    ∃ l', findChan (pub c args beh s).state c = some (ChanVal.lst l')
      ∧ registered s c = l' := by
  unfold pub
  rcases hl with hf | ⟨l, hf⟩
  · refine ⟨[], ?_, ?_⟩
    · rw [hf, findChan_append_none hf]
      simp [findChan]
    · unfold registered
      rw [hf]
  · refine ⟨l, ?_, ?_⟩
    · rw [hf]
      exact hf
    · unfold registered
      rw [hf]
      rfl

/-! ### Claim theorems -/

/-- C3: for every channel and arguments, `pub` invokes every handler
currently registered to the channel, each exactly once per registration,
in subscription (insertion) order — the call list is exactly the
registered sequence in order — and each handler receives the supplied
positional and keyword arguments unchanged.  The hypothesis states that
no registered handler raises on these arguments. -/
theorem pub_invokes_registered_in_order (c : Channel) (args : Args)
    (beh : Handler → Args → Bool) (s : Subscriptions)
    (hb : ∀ g ∈ registered s c, beh g args = true) :
    (pub c args beh s).calls = (registered s c).map (fun g => (g, args)) :=
  (pub_calls_of_ok c args beh s hb).1

/-- Witness for C3: channel "foo" holding handlers 1 then 2, published
with one positional argument: both are called in order with it. -/
theorem pub_invokes_registered_in_order_witness :
    (pub "foo" ⟨[5], []⟩ (fun _ _ => true)
        [("foo", ChanVal.lst [⟨1, 10⟩, ⟨2, 20⟩])]).calls
      = [(⟨1, 10⟩, ⟨[5], []⟩), (⟨2, 20⟩, ⟨[5], []⟩)] := by
  have h := pub_invokes_registered_in_order "foo" ⟨[5], []⟩ (fun _ _ => true)
      [("foo", ChanVal.lst [⟨1, 10⟩, ⟨2, 20⟩])] (by decide)
  exact h.trans (by decide)

/-- C4: `unsub` on an unknown channel, or for a handler that is not in
the channel's sequence, raises no error (`unsub` is a total function)
and leaves every channel's registered handlers unchanged. -/
theorem unsub_absent_handler_is_noop (c : Channel) (h : Handler)
    (s : Subscriptions) (hn : ∀ g ∈ registered s c, g.id ≠ h.id) :
    ∀ c', registered (unsub c h s) c' = registered s c' := by
  intro c'
  by_cases hc : c' = c
  · subst hc
    rw [registered_unsub_self]
    refine List.filter_eq_self.mpr ?_
    intro g hg
    simpa using hn g hg
  · exact registered_unsub_ne c h s hc

/-- Witness for C4: unsubscribing never-subscribed handler 2 from "foo"
leaves the registered handlers of "foo" unchanged. -/
theorem unsub_absent_handler_is_noop_witness :
    registered (unsub "foo" ⟨2, 20⟩ [("foo", ChanVal.lst [⟨1, 10⟩])]) "foo"
      = registered [("foo", ChanVal.lst [⟨1, 10⟩])] "foo" :=
  unsub_absent_handler_is_noop "foo" ⟨2, 20⟩
    [("foo", ChanVal.lst [⟨1, 10⟩])] (by decide) "foo"

/-- C6: subscribing the same handler twice to the same channel is not
deduplicated: both registrations are kept, and a subsequent `pub`
invokes the handler twice, once per registration, after the previously
registered handlers, in registration order. -/
theorem duplicate_sub_invoked_twice (c : Channel) (h : Handler) (args : Args)
    (beh : Handler → Args → Bool) (s s₁ s₂ : Subscriptions)
    (h1 : sub c h s = some s₁) (h2 : sub c h s₁ = some s₂)
    (hb : ∀ g ∈ registered s₂ c, beh g args = true) :
    (pub c args beh s₂).calls
      = (registered s c).map (fun g => (g, args)) ++ [(h, args), (h, args)] := by
  have e2 : registered s₂ c = registered s c ++ [h, h] := by
    rw [registered_sub_self c h h2, registered_sub_self c h h1]
    simp
  have hc := (pub_calls_of_ok c args beh s₂ hb).1
  rw [hc, e2]
  simp

/-- Witness for C6: handler 1 subscribed twice to "foo" starting from
the empty registry is called twice by one publish. -/
theorem duplicate_sub_invoked_twice_witness :
    (pub "foo" ⟨[], []⟩ (fun _ _ => true)
        [("foo", ChanVal.lst [⟨1, 10⟩, ⟨1, 10⟩])]).calls
      = [(⟨1, 10⟩, ⟨[], []⟩), (⟨1, 10⟩, ⟨[], []⟩)] := by
  have h := duplicate_sub_invoked_twice "foo" ⟨1, 10⟩ ⟨[], []⟩ (fun _ _ => true)
      [] [("foo", ChanVal.lst [⟨1, 10⟩])]
      [("foo", ChanVal.lst [⟨1, 10⟩, ⟨1, 10⟩])]
      (by decide) (by decide) (by decide)
  exact h.trans (by decide)

/-- C7: publishing on a channel invokes only handlers registered there —
never a handler registered solely on a different channel — and a handler
registered once on each of two distinct channels is invoked exactly once
per channel when the two channels are published to in turn. -/
theorem publish_channel_isolation (c1 c2 : Channel) (h : Handler)
    (a1 a2 : Args) (beh : Handler → Args → Bool) (s : Subscriptions)
    (hcc : c1 ≠ c2)
    (m1 : (registered s c1).count h = 1) (m2 : (registered s c2).count h = 1)
    (hb1 : ∀ g ∈ registered s c1, beh g a1 = true)
    (hb2 : ∀ g ∈ registered s c2, beh g a2 = true) :
    ((pub c1 a1 beh s).calls.count (h, a1) = 1
        ∧ (pub c2 a2 beh (pub c1 a1 beh s).state).calls.count (h, a2) = 1)
      ∧ ∀ g ∈ registered s c2, g ∉ registered s c1 →
          ∀ b, (g, b) ∉ (pub c1 a1 beh s).calls := by
  have hcalls1 := (pub_calls_of_ok c1 a1 beh s hb1).1
  have hreg2 : registered (pub c1 a1 beh s).state c2 = registered s c2 :=
    registered_pub_ne c1 a1 beh s (fun he => hcc he.symm)
  refine ⟨⟨?_, ?_⟩, ?_⟩
  · rw [hcalls1, count_map_pair, m1]
  · have hb2' : ∀ g ∈ registered (pub c1 a1 beh s).state c2,
        beh g a2 = true := by
      rw [hreg2]
      exact hb2
    have hcalls2 := (pub_calls_of_ok c2 a2 beh _ hb2').1
    rw [hcalls2, hreg2, count_map_pair, m2]
  · intro g hg2 hg1 b hmem
    rw [hcalls1] at hmem
    exact hg1 (mem_map_pair_fst hmem)

/-- Witness for C7: handler 1 on channels "a" and "b", handler 2 only on
"b"; publishing "a" then "b" calls handler 1 once on each channel. -/
theorem publish_channel_isolation_witness :
    (pub "a" ⟨[1], []⟩ (fun _ _ => true)
        [("a", ChanVal.lst [⟨1, 10⟩]),
         ("b", ChanVal.lst [⟨1, 10⟩, ⟨2, 20⟩])]).calls.count
      (⟨1, 10⟩, ⟨[1], []⟩) = 1 :=
  (publish_channel_isolation "a" "b" ⟨1, 10⟩ ⟨[1], []⟩ ⟨[2], []⟩
      (fun _ _ => true)
      [("a", ChanVal.lst [⟨1, 10⟩]), ("b", ChanVal.lst [⟨1, 10⟩, ⟨2, 20⟩])]
      (by decide) (by decide) (by decide) (by decide) (by decide)).1.1

/-- C8: `unsub` removes every occurrence of the handler from the
channel's sequence matched by object identity (`is not`), not structural
equality: a distinct registration that compares equal (same `val`) but
has a different identity is kept, and the next publish still invokes
it. -/
theorem unsub_matches_identity_not_equality (c : Channel) (h h' : Handler)
    (args : Args) (beh : Handler → Args → Bool) (s : Subscriptions)
    (hid : h'.id ≠ h.id) (_hval : h'.val = h.val)
    (hmem : h' ∈ registered s c)
    (hb : ∀ g ∈ registered (unsub c h s) c, beh g args = true) :
    registered (unsub c h s) c
        = (registered s c).filter (fun g => decide (g.id ≠ h.id))
      ∧ (h', args) ∈ (pub c args beh (unsub c h s)).calls := by
  refine ⟨registered_unsub_self c h s, ?_⟩
  have hm : h' ∈ registered (unsub c h s) c := by
    rw [registered_unsub_self]
    exact List.mem_filter.2 ⟨hmem, by simpa using hid⟩
  have hc := (pub_calls_of_ok c args beh (unsub c h s) hb).1
  rw [hc]
  exact List.mem_map.2 ⟨h', hm, rfl⟩

/-- Witness for C8: handlers 1 and 2 share the structural value 10;
after unsubscribing handler 1 from "foo", the equal-but-distinct
handler 2 is still invoked by the next publish. -/
theorem unsub_matches_identity_not_equality_witness :
    (⟨2, 10⟩, ⟨[], []⟩) ∈ (pub "foo" ⟨[], []⟩ (fun _ _ => true)
        (unsub "foo" ⟨1, 10⟩
          [("foo", ChanVal.lst [⟨1, 10⟩, ⟨2, 10⟩])])).calls :=
  (unsub_matches_identity_not_equality "foo" ⟨1, 10⟩ ⟨2, 10⟩ ⟨[], []⟩
      (fun _ _ => true) [("foo", ChanVal.lst [⟨1, 10⟩, ⟨2, 10⟩])]
      (by decide) (by decide) (by decide) (by decide)).2

/-- C1 at its failing input: handlers 1 and 2 subscribed to "foo",
handler 2 unsubscribed.  Handler 2 is indeed never invoked again, but
the claim also says every subsequent publish still invokes handler 1:
only the first one does — it exhausts the filter object `unsub` left in
the mapping, and the second publish invokes nothing at all. -/
theorem unsub_then_second_publish_invokes_nothing :
    sub "foo" ⟨1, 10⟩ [] = some [("foo", ChanVal.lst [⟨1, 10⟩])]
      ∧ sub "foo" ⟨2, 20⟩ [("foo", ChanVal.lst [⟨1, 10⟩])]
          = some [("foo", ChanVal.lst [⟨1, 10⟩, ⟨2, 20⟩])]
      ∧ (pub "foo" ⟨[], []⟩ (fun _ _ => true)
          (unsub "foo" ⟨2, 20⟩
            [("foo", ChanVal.lst [⟨1, 10⟩, ⟨2, 20⟩])])).calls
        = [(⟨1, 10⟩, ⟨[], []⟩)]
      ∧ (pub "foo" ⟨[], []⟩ (fun _ _ => true)
          (pub "foo" ⟨[], []⟩ (fun _ _ => true)
            (unsub "foo" ⟨2, 20⟩
              [("foo", ChanVal.lst [⟨1, 10⟩, ⟨2, 20⟩])])).state).calls
        = [] := by decide

/-- C2 at its failing input: after subscribing handler 1 to "foo" and
unsubscribing it, the mapping holds a filter object, not a list; the
next subscribe on "foo" calls `.append` on that filter object and raises
AttributeError (modelled by `sub` returning `none`) instead of appending
the new handler. -/
theorem sub_after_unsub_raises :
    sub "foo" ⟨1, 10⟩ [] = some [("foo", ChanVal.lst [⟨1, 10⟩])]
      ∧ unsub "foo" ⟨1, 10⟩ [("foo", ChanVal.lst [⟨1, 10⟩])]
          = [("foo", ChanVal.iter (PyIter.filterIter ⟨1, 10⟩
              (PyIter.listIter [⟨1, 10⟩])))]
      ∧ sub "foo" ⟨2, 20⟩
          [("foo", ChanVal.iter (PyIter.filterIter ⟨1, 10⟩
              (PyIter.listIter [⟨1, 10⟩])))]
        = none := by decide

/-- C5 at its failing input: publishing on a channel with no subscribers
is indeed a silent no-op (first two conjuncts), but subscribe is not
error-free for every channel and state: once an unsubscribe has left a
filter object on "foo", `sub` hits `.append` on it and raises
AttributeError (modelled by `none`). -/
theorem sub_not_total_after_unsub :
    (pub "bar" ⟨[1], []⟩ (fun _ _ => true) []).calls = []
      ∧ (pub "bar" ⟨[1], []⟩ (fun _ _ => true) []).ok = true
      ∧ sub "foo" ⟨2, 20⟩
          (unsub "foo" ⟨1, 10⟩ [("foo", ChanVal.lst [⟨1, 10⟩])])
        = none := by decide

/-- C9 counterexample: after an unsubscribe leaves a filter iterator on
"foo", a publish consumes it: the registered-handler state is not the
same before and after the call, and an identical second publish invokes
nothing instead of the same handlers. -/
theorem pub_mutates_state_counterexample :
    registered (unsub "foo" ⟨2, 20⟩
        [("foo", ChanVal.lst [⟨1, 10⟩, ⟨2, 20⟩])]) "foo" = [⟨1, 10⟩]
      ∧ (pub "foo" ⟨[], []⟩ (fun _ _ => true)
          (unsub "foo" ⟨2, 20⟩
            [("foo", ChanVal.lst [⟨1, 10⟩, ⟨2, 20⟩])])).calls
        = [(⟨1, 10⟩, ⟨[], []⟩)]
      ∧ registered (pub "foo" ⟨[], []⟩ (fun _ _ => true)
          (unsub "foo" ⟨2, 20⟩
            [("foo", ChanVal.lst [⟨1, 10⟩, ⟨2, 20⟩])])).state "foo"
        = []
      ∧ (pub "foo" ⟨[], []⟩ (fun _ _ => true)
          (pub "foo" ⟨[], []⟩ (fun _ _ => true)
            (unsub "foo" ⟨2, 20⟩
              [("foo", ChanVal.lst [⟨1, 10⟩, ⟨2, 20⟩])])).state).calls
        = [] := by decide

/-- C9 (amended): provided the channel's stored value is a concrete list
— in particular whenever no unsubscribe has been performed on that
channel — `pub` leaves every channel's registered handlers unchanged
(apart from materialising an empty entry for an unknown channel), and an
immediate second publish on the same channel makes exactly the same
calls. -/
theorem pub_preserves_state_on_list_channel (c : Channel) (args : Args)
    (beh : Handler → Args → Bool) (s : Subscriptions)
    (hl : findChan s c = none ∨ ∃ l, findChan s c = some (ChanVal.lst l)) :
    (∀ c', registered (pub c args beh s).state c' = registered s c')
      ∧ (pub c args beh (pub c args beh s).state).calls
          = (pub c args beh s).calls := by
  constructor
  · intro c'
    by_cases hc : c' = c
    · subst hc
      exact registered_pub_self_list c' args beh s hl
    · exact registered_pub_ne c args beh s hc
  · rcases hl with hf | ⟨l, hf⟩
    · have h1 : pub c args beh s = ⟨[], s ++ [(c, ChanVal.lst [])], true⟩ := by
        unfold pub
        rw [hf]
      have h2 : findChan (s ++ [(c, ChanVal.lst [])]) c
          = some (ChanVal.lst []) := by
        rw [findChan_append_none hf]
        simp [findChan]
      have h3 : pub c args beh (s ++ [(c, ChanVal.lst [])])
          = ⟨[], s ++ [(c, ChanVal.lst [])], true⟩ := by
        unfold pub
        rw [h2]
        simp [runHandlers]
      rw [h1, h3]
    · have h1 : (pub c args beh s).state = s := by
        unfold pub
        rw [hf]
      rw [h1]

/-- Witness for the amended C9: with "foo" holding the list of
handler 1, publishing twice in a row makes the same calls. -/
theorem pub_preserves_state_on_list_channel_witness :
    (pub "foo" ⟨[], []⟩ (fun _ _ => true)
        (pub "foo" ⟨[], []⟩ (fun _ _ => true)
          [("foo", ChanVal.lst [⟨1, 10⟩])]).state).calls
      = (pub "foo" ⟨[], []⟩ (fun _ _ => true)
          [("foo", ChanVal.lst [⟨1, 10⟩])]).calls :=
  (pub_preserves_state_on_list_channel "foo" ⟨[], []⟩ (fun _ _ => true)
      [("foo", ChanVal.lst [⟨1, 10⟩])]
      (Or.inr ⟨[⟨1, 10⟩], by decide⟩)).2

/-- C10 counterexample: with "foo" holding the filter iterator left by
an unsubscribe of handler 3, a publish in which handler 1 raises
partially consumes that iterator: the failed publish does change the
registered-handler state (handler 1 is gone from it afterwards). -/
theorem pub_exception_mutates_state_counterexample :
    registered (unsub "foo" ⟨3, 30⟩
        [("foo", ChanVal.lst [⟨1, 10⟩, ⟨2, 20⟩, ⟨3, 30⟩])]) "foo"
        = [⟨1, 10⟩, ⟨2, 20⟩]
      ∧ (pub "foo" ⟨[], []⟩ (fun g _ => decide (g.id ≠ 1))
          (unsub "foo" ⟨3, 30⟩
            [("foo", ChanVal.lst [⟨1, 10⟩, ⟨2, 20⟩, ⟨3, 30⟩])])).ok = false
      ∧ registered (pub "foo" ⟨[], []⟩ (fun g _ => decide (g.id ≠ 1))
          (unsub "foo" ⟨3, 30⟩
            [("foo", ChanVal.lst [⟨1, 10⟩, ⟨2, 20⟩, ⟨3, 30⟩])])).state "foo"
        = [⟨2, 20⟩] := by decide

/-- C10 (amended): if a handler raises during `pub`, the exception
propagates to the caller (`ok = false`) and the handlers after it in the
channel's sequence are not invoked in that call; provided the channel
holds a concrete list, the `__subscriptions` state is entirely unchanged
by the failed publish.  (When the channel instead holds a filter
iterator left by `unsub`, the failed publish consumes it up to the
raising handler — see the counterexample.) -/
theorem pub_exception_propagates (c : Channel) (args : Args)
    (beh : Handler → Args → Bool) (s : Subscriptions)
    (l1 l2 : List Handler) (hraise : Handler)
    (hf : findChan s c = some (ChanVal.lst (l1 ++ hraise :: l2)))
    (hb : ∀ g ∈ l1, beh g args = true) (hbr : beh hraise args = false) :
    (pub c args beh s).calls = l1.map (fun g => (g, args)) ++ [(hraise, args)]
      ∧ (pub c args beh s).ok = false
      ∧ (pub c args beh s).state = s := by
  have hrun := runHandlers_raise beh args l1 hraise l2 hb hbr
  unfold pub
  rw [hf]
  simp [hrun]

/-- Witness for the amended C10: "foo" holds handlers 1, 2, 3 as a list;
handler 2 raises, so the publish reports the failure, having called
handlers 1 and 2 only. -/
theorem pub_exception_propagates_witness :
    (pub "foo" ⟨[], []⟩ (fun g _ => decide (g.id ≠ 2))
        [("foo", ChanVal.lst [⟨1, 10⟩, ⟨2, 20⟩, ⟨3, 30⟩])]).ok = false :=
  (pub_exception_propagates "foo" ⟨[], []⟩ (fun g _ => decide (g.id ≠ 2))
      [("foo", ChanVal.lst [⟨1, 10⟩, ⟨2, 20⟩, ⟨3, 30⟩])]
      [⟨1, 10⟩] [⟨3, 30⟩] ⟨2, 20⟩ (by decide) (by decide) (by decide)).2.1
